import Mathlib

/-!
Shallow embedding of the salonFunctions Firebase Cloud Functions
(`functions/src/**`): the profile / authorization / ownership-transfer
handlers, modelled over an explicit key-addressed document store.

Conventions of the embedding:
* Firestore documents are bags of optional fields: a `UserDoc` / `SalonDoc`
  field of type `Option α` is `none` when the field is absent from the
  document; a field whose stored value may itself be JS `null` is
  `Option (Option α)` (present-but-null is `some none`).
* The store is an association list from full document paths to documents,
  with replace-on-write semantics (`setDoc`), mirroring Firestore's
  single-document atomic writes; `updateDoc`-style writes are modelled by
  the handlers themselves, which only write after reading an existing doc.
* Server timestamps are an abstract `Nat` parameter `now` supplied to each
  handler invocation.
* JS truthiness of optional strings (`if (name) ...`) is `jsTruthy`:
  present and non-empty.
* `process.env.FIREBASE_APP_ID || 'default-app-id'` is `appIdFromEnv`.
* The external identity provider (`authAdmin`) is a parameter: email lookup
  is a function into `LookupResult`, and the best-effort user-record mirror
  is a boolean `mirrorOk` saying whether `authAdmin.updateUser` succeeds.
* Handlers return `Except HErr out × Store`: the store component is the
  state after the call, including writes committed before a thrown error.
-/

deriving instance DecidableEq for Except

namespace SalonFns

/-- The `HttpsError` codes used by the handlers. -/
inductive HErr where
  | unauthenticated
  | permissionDenied
  | notFound
  | invalidArgument
  | internal
deriving DecidableEq, Repr

/-- JS truthiness of an optional string (`undefined`, `null`-free case):
`!s` is false exactly when the string is present and non-empty. -/
def jsTruthy : Option String → Bool
  | some s => s ≠ ""
  | none => false

/-- JS truthiness of a present-or-null optional string field
(`undefined` = `none`, `null` = `some none`). -/
def jsTruthyN : Option (Option String) → Bool
  | some (some s) => s ≠ ""
  | _ => false

/-- `process.env.FIREBASE_APP_ID || 'default-app-id'` (empty env value is
falsy in JS). -/
def appIdFromEnv : Option String → String
  | some s => if s = "" then "default-app-id" else s
  | none => "default-app-id"

/-- `getUserProfilePath` from `functions/src/utils/firebaseAdmin.ts`. -/
def getUserProfilePath (appId userId : String) : String :=
  "artifacts/" ++ appId ++ "/users/" ++ userId ++ "/profile/data"

/-- `getSalonsCollectionPath` from `functions/src/utils/firebaseAdmin.ts`. -/
def getSalonsCollectionPath (appId : String) : String :=
  "artifacts/" ++ appId ++ "/public/data/salons"

/-- A user-profile document as stored in Firestore: every field optional
(absent = `none`).  `email`, `displayName`, `photoURL`, `phoneNumber`,
`address` may also be stored as explicit `null` (`some none`).  The
`associatedSalons` entries and the `address` payload are opaque strings:
no handler inspects their structure. -/
structure UserDoc where
  uid : Option String := none
  email : Option (Option String) := none
  displayName : Option (Option String) := none
  photoURL : Option (Option String) := none
  phoneNumber : Option (Option String) := none
  createdAt : Option Nat := none
  lastLoginAt : Option Nat := none
  updatedAt : Option Nat := none
  role : Option String := none
  ownedSalons : Option (List String) := none
  associatedSalons : Option (List String) := none
  favoriteSalons : Option (List String) := none
  address : Option (Option String) := none
deriving DecidableEq, Repr

/-- A salon document.  The structured `address` payload is opaque: no
handler inspects it beyond copying. -/
structure SalonDoc where
  name : Option String := none
  address : Option String := none
  description : Option String := none
  ownerId : Option String := none
  createdAt : Option Nat := none
  updatedAt : Option Nat := none
deriving DecidableEq, Repr

/-- Key-addressed document store: full path to document. -/
abbrev DocStore (δ : Type) : Type := List (String × δ)

/-- Read a document (`ref.get()`): the first binding of the path. -/
def getDoc : DocStore δ → String → Option δ
  | [], _ => none
  | kv :: rest, p => if kv.1 = p then some kv.2 else getDoc rest p

/-- Write a document at a path: replace the binding if the path is
present, append otherwise (single-document atomic write). -/
def setDoc : DocStore δ → String → δ → DocStore δ
  | [], p, d => [(p, d)]
  | kv :: rest, p, d => if kv.1 = p then (p, d) :: rest else kv :: setDoc rest p d

/-- The whole database: profile documents and salon documents, addressed
by their full Firestore paths. -/
structure Store where
  profiles : DocStore UserDoc
  salons : DocStore SalonDoc
deriving DecidableEq, Repr

/-- `assertAdmin` from `functions/src/utils/firebaseAdmin.ts`: requires an
authenticated caller whose profile document (under the given app id)
exists and has `role === 'admin'`. -/
def assertAdmin (auth : Option String) (appId : String)
    (profiles : DocStore UserDoc) : Except HErr Unit :=
  match auth with
  | none => .error .unauthenticated
  | some userId =>
    match getDoc profiles (getUserProfilePath appId userId) with
    | none => .error .permissionDenied
    | some doc =>
      if doc.role = some "admin" then .ok () else .error .permissionDenied

/-- The verified identity token of the caller
(`request.auth.uid` / `request.auth.token`). -/
structure AuthToken where
  uid : String
  email : Option String := none
  name : Option String := none
  picture : Option String := none
deriving DecidableEq, Repr

/-- The app id hardcoded in `ensureUserProfile.ts` (and in
`getAllUserProfiles.ts`). -/
def hardcodedAppId : String := "1:514813479729:web:4a0ec92280f130e8b63e10"

/-- The fresh profile document built by the creation branch of
`ensureUserProfile` (lines 78-91): every field present, `role = 'customer'`,
`createdAt = lastLoginAt = now`, empty relationship arrays, null address,
no `updatedAt` field. -/
def ensureNewDoc (a : AuthToken) (now : Nat) : UserDoc :=
  { uid := some a.uid
    displayName := some (some (match a.name with | some n => if n = "" then "New User" else n | none => "New User"))
    email := some (match a.email with | some e => if e = "" then none else some e | none => none)
    photoURL := some (match a.picture with | some p => if p = "" then none else some p | none => none)
    phoneNumber := some none
    createdAt := some now
    lastLoginAt := some now
    role := some "customer"
    ownedSalons := some []
    associatedSalons := some []
    favoriteSalons := some []
    address := some none }

/-- `ensureUserProfile` from `functions/src/users/ensureUserProfile.ts`.
Reads the profile at the path built from the *hardcoded* app id; if it
exists, updates only `lastLoginAt`; otherwise writes `ensureNewDoc` with an
unconditional `set`.  Returns the written/refreshed document. -/
def ensureUserProfile (auth : Option AuthToken) (now : Nat)
    (profiles : DocStore UserDoc) : Except HErr UserDoc × DocStore UserDoc :=
  match auth with
  | none => (.error .unauthenticated, profiles)
  | some a =>
    let path := getUserProfilePath hardcodedAppId a.uid
    match getDoc profiles path with
    | some p =>
      let p' := { p with lastLoginAt := some now }
      (.ok p', setDoc profiles path p')
    | none =>
      let d := ensureNewDoc a now
      (.ok d, setDoc profiles path d)

/-- The interleaved execution of two concurrent first-time
`ensureUserProfile` calls under the schedule read(A), read(B), set(A),
set(B), built from the same read (line 46) and creation-set (line 94)
steps as `ensureUserProfile`.  It is defined for the double-create race:
when either read sees an existing document the schedule is not this one
and the store is returned unchanged. -/
def ensureTwoFirstLoginsInterleaved (a b : AuthToken) (nowA nowB : Nat)
    (profiles : DocStore UserDoc) : DocStore UserDoc :=
  let pA := getUserProfilePath hardcodedAppId a.uid
  let pB := getUserProfilePath hardcodedAppId b.uid
  match getDoc profiles pA, getDoc profiles pB with
  | none, none =>
    setDoc (setDoc profiles pA (ensureNewDoc a nowA)) pB (ensureNewDoc b nowB)
  | _, _ => profiles

/-- `const uidToUpdate = targetUid || callerUid` style JS defaulting
(empty string is falsy). -/
def jsOr (o : Option String) (dflt : String) : String :=
  match o with
  | some s => if s = "" then dflt else s
  | none => dflt

/-- The request data of `updateAuthUserProfile`:
`Partial<UserProfile> & { targetUid?: string }`.  The handler destructures
`targetUid` and `role`; every other supplied field lands in the
`...updates` spread. -/
structure UpdateProfileReq where
  targetUid : Option String := none
  role : Option String := none
  uid : Option String := none
  email : Option (Option String) := none
  displayName : Option (Option String) := none
  photoURL : Option (Option String) := none
  phoneNumber : Option (Option String) := none
  createdAt : Option Nat := none
  lastLoginAt : Option Nat := none
  ownedSalons : Option (List String) := none
  associatedSalons : Option (List String) := none
  favoriteSalons : Option (List String) := none
  address : Option (Option String) := none
deriving DecidableEq, Repr

/-- Field-level Firestore `update` merge: a field present in the update
object overwrites the stored field, an absent one is kept. -/
def updField (new old : Option α) : Option α :=
  match new with
  | some v => some v
  | none => old

/-- The document produced by `userProfileRef.update(finalUpdates)` in
`updateAuthUserProfile`: the `...updates` spread merged onto the current
document, `role` included when supplied, `updatedAt` stamped with the
server timestamp. -/
def applyProfileUpdates (d : UserDoc) (r : UpdateProfileReq) (now : Nat) : UserDoc :=
  { uid := updField r.uid d.uid
    email := updField r.email d.email
    displayName := updField r.displayName d.displayName
    photoURL := updField r.photoURL d.photoURL
    phoneNumber := updField r.phoneNumber d.phoneNumber
    createdAt := updField r.createdAt d.createdAt
    lastLoginAt := updField r.lastLoginAt d.lastLoginAt
    updatedAt := some now
    role := updField r.role d.role
    ownedSalons := updField r.ownedSalons d.ownedSalons
    associatedSalons := updField r.associatedSalons d.associatedSalons
    favoriteSalons := updField r.favoriteSalons d.favoriteSalons
    address := updField r.address d.address }

/-- The inline admin re-check of `updateAuthUserProfile` (and
`getAuthUserProfile`): the caller's profile exists and has
`role === 'admin'`. -/
def callerIsAdmin (profiles : DocStore UserDoc) (appId callerUid : String) : Bool :=
  match getDoc profiles (getUserProfilePath appId callerUid) with
  | some d => d.role = some "admin"
  | none => false

/-- `updateAuthUserProfile` from
`functions/src/users/updateAuthUserProfile.ts`.  `mirrorOk` says whether
the best-effort `authAdmin.updateUser` mirror call succeeds when it is
attempted; its failure is caught by the surrounding `try` and rethrown as
`internal` after the profile write has committed.  The runtime
`photoURL` type check (line 59) never fires in this typed embedding,
where every supplied `photoURL` is a string or null. -/
def updateAuthUserProfile (env : Option String) (auth : Option String)
    (data : UpdateProfileReq) (mirrorOk : Bool) (now : Nat)
    (profiles : DocStore UserDoc) : Except HErr String × DocStore UserDoc :=
  match auth with
  | none => (.error .unauthenticated, profiles)
  | some callerUid =>
    let uidToUpdate := jsOr data.targetUid callerUid
    let appId := appIdFromEnv env
    let path := getUserProfilePath appId uidToUpdate
    match getDoc profiles path with
    | none => (.error .notFound, profiles)
    | some currentProfile =>
      if callerUid ≠ uidToUpdate ∧ callerIsAdmin profiles appId callerUid = false then
        (.error .permissionDenied, profiles)
      else if (match data.role with
               | some r => (decide (callerUid ≠ uidToUpdate) || decide (currentProfile.role ≠ some r))
                   && !(callerIsAdmin profiles appId callerUid)
               | none => false) then
        (.error .permissionDenied, profiles)
      else
        let updated := applyProfileUpdates currentProfile data now
        let profiles' := setDoc profiles path updated
        if (jsTruthyN data.displayName ∨ jsTruthyN data.photoURL) ∧ mirrorOk = false then
          (.error .internal, profiles')
        else
          (.ok "User profile updated successfully!", profiles')

/-- The request data of `updateSalon` (`UpdateSalonData`): the structured
`address` payload is opaque. -/
structure UpdateSalonReq where
  id : String := ""
  name : Option String := none
  address : Option String := none
  description : Option String := none
  ownerEmail : Option String := none
deriving DecidableEq, Repr

/-- Outcome of `authAdmin.getUserByEmail`: a uid, the
`auth/user-not-found` rejection, or any other failure. -/
inductive LookupResult where
  | found (uid : String)
  | userNotFound
  | failure
deriving DecidableEq, Repr

/-- The new-owner profile side effect of `updateSalon` (lines 49-61):
read the resolved owner's profile; if it exists with `role === 'user'`,
update the role to `'salon'`; if it does not exist, merge-create the stub
`{ email, role: 'salon', createdAt }`. -/
def ownerProfileStep (appId em oid : String) (now : Nat)
    (profiles : DocStore UserDoc) : DocStore UserDoc :=
  let ppath := getUserProfilePath appId oid
  match getDoc profiles ppath with
  | some snap =>
    if snap.role = some "user" then
      setDoc profiles ppath { snap with role := some "salon" }
    else
      profiles
  | none =>
    setDoc profiles ppath
      { email := some (some em), role := some "salon", createdAt := some now }

/-- The salon-document write of `updateSalon`
(`salonDocRef.update(updateData)`): `updatedAt` always, the text fields
when truthy, `ownerId` when an owner was resolved. -/
def applySalonUpdate (data : UpdateSalonReq) (ownerId : Option String)
    (now : Nat) (s : SalonDoc) : SalonDoc :=
  { s with
    updatedAt := some now
    name := if jsTruthy data.name then data.name else s.name
    address := if jsTruthy data.address then data.address else s.address
    description := if jsTruthy data.description then data.description else s.description
    ownerId := match ownerId with | some o => some o | none => s.ownerId }

/-- The owner-email resolution of `updateSalon` (lines 24-36):
`authAdmin.getUserByEmail` inside the guard `if (ownerEmail)`, with
`auth/user-not-found` mapped to `not-found` and any other lookup failure
to `internal`.  `ok none` when no (truthy) owner email was supplied. -/
def resolveOwner (ownerEmail : Option String)
    (lookup : String → LookupResult) : Except HErr (Option String) :=
  match ownerEmail with
  | some em =>
    if em = "" then .ok none
    else
      match lookup em with
      | .found uid => .ok (some uid)
      | .userNotFound => .error .notFound
      | .failure => .error .internal
  | none => .ok none

/-- `if (ownerId)`: the resolved owner id participates in the update only
when truthy. -/
def truthyOwner : Option String → Option String
  | some oid => if oid = "" then none else some oid
  | none => none

/-- The owner-profile side effect of the `try` block, guarded by
`if (ownerId)`: a no-op when no owner was resolved. -/
def ownerProfilePhase (appId : String) (data : UpdateSalonReq)
    (ownerIdT : Option String) (now : Nat) (l : DocStore UserDoc) :
    DocStore UserDoc :=
  match ownerIdT with
  | some oid =>
    match data.ownerEmail with
    | some em => ownerProfileStep appId em oid now l
    | none => l
  | none => l

/-- The `try` block of `updateSalon` (lines 38-65): the owner-profile
side effect (when an owner was resolved) followed by the salon-document
update.  A missing salon document makes `update` throw, caught as
`internal`, with the already-performed profile write left in place. -/
def updateSalonWrite (appId : String) (data : UpdateSalonReq)
    (ownerIdT : Option String) (now : Nat) (st : Store) :
    Except HErr String × Store :=
  let profiles' := ownerProfilePhase appId data ownerIdT now st.profiles
  let spath := getSalonsCollectionPath appId ++ "/" ++ data.id
  match getDoc st.salons spath with
  | none => (.error .internal, { st with profiles := profiles' })
  | some sal =>
    (.ok "Salon updated successfully!",
      { profiles := profiles',
        salons := setDoc st.salons spath (applySalonUpdate data ownerIdT now sal) })

/-- `updateSalon` from `functions/src/salons/updateSalon.ts`.  Admin
check, input check, owner-email resolution through the identity
provider, then the write phase `updateSalonWrite`. -/
def updateSalon (env auth : Option String) (data : UpdateSalonReq)
    (lookup : String → LookupResult) (now : Nat) (st : Store) :
    Except HErr String × Store :=
  let appId := appIdFromEnv env
  match assertAdmin auth appId st.profiles with
  | .error e => (.error e, st)
  | .ok _ =>
    if data.id = "" ∨ (¬ jsTruthy data.name ∧ ¬ jsTruthy data.address
        ∧ ¬ jsTruthy data.description ∧ ¬ jsTruthy data.ownerEmail) then
      (.error .invalidArgument, st)
    else
      match resolveOwner data.ownerEmail lookup with
      | .error e => (.error e, st)
      | .ok ownerId => updateSalonWrite appId data (truthyOwner ownerId) now st

/-- The request data of `addSalon` (`AddSalonData`): the structured
`address` payload is opaque. -/
structure AddSalonReq where
  name : Option String := none
  address : Option String := none
  description : Option String := none
  ownerEmail : Option String := none
deriving DecidableEq, Repr

/-- The document created by `addSalon`'s `collection.add` call:
`ownerId` holds the supplied `ownerEmail` string directly. -/
def addSalonDoc (data : AddSalonReq) (now : Nat) : SalonDoc :=
  { name := data.name, address := data.address,
    description := data.description, ownerId := data.ownerEmail,
    createdAt := some now, updatedAt := some now }

/-- `addSalon` from `functions/src/salons/addSalon.ts`.  Admin check,
input check, then the salon document is created with
`ownerId: ownerEmail` directly — the identity provider is never consulted
(the handler takes no lookup collaborator).  `newId` is the fresh
document id generated by `collection.add`. -/
def addSalon (env auth : Option String) (data : AddSalonReq)
    (newId : String) (now : Nat) (st : Store) : Except HErr String × Store :=
  let appId := appIdFromEnv env
  match assertAdmin auth appId st.profiles with
  | .error e => (.error e, st)
  | .ok _ =>
    if ¬ jsTruthy data.name ∨ ¬ jsTruthy data.address
        ∨ ¬ jsTruthy data.description ∨ ¬ jsTruthy data.ownerEmail then
      (.error .invalidArgument, st)
    else
      let spath := getSalonsCollectionPath appId ++ "/" ++ newId
      (.ok newId, { st with salons := setDoc st.salons spath (addSalonDoc data now) })

/-- Lexicographic order on character lists by Unicode scalar value; the
order Firestore uses on string fields for range queries. -/
def lexLe : List Char → List Char → Bool
  | [], _ => true
  | _ :: _, [] => false
  | a :: as, b :: bs => if a < b then true else if a = b then lexLe as bs else false

/-- The high sentinel character appended to the search term
(`searchTerm + ''`). -/
def sentinelChar : Char := Char.ofNat 0xf8ff

/-- The Firestore range filter of `searchUsersByEmail`:
`email >= searchTerm && email <= searchTerm + ''`.  Only documents
whose `email` field holds a string participate in the string-typed range
query. -/
def emailInRange (term s : String) : Bool :=
  lexLe term.data s.data && lexLe s.data (term.data ++ [sentinelChar])

/-- The projected record pushed by `searchUsersByEmail`: only
`uid`, `email`, `displayName`. -/
structure SearchRecord where
  uid : Option String
  email : Option (Option String)
  displayName : Option (Option String)
deriving DecidableEq, Repr

/-- `{ uid: data.uid, email: data.email, displayName: data.displayName || data.email }`. -/
def toSearchRecord (d : UserDoc) : SearchRecord :=
  { uid := d.uid, email := d.email,
    displayName := if jsTruthyN d.displayName then d.displayName else d.email }

/-- `searchUsersByEmail` from `functions/src/users/searchUsers.ts`.
Admin check; a missing, non-string, or shorter-than-2-character search
term returns `[]`; otherwise the collection-group range query over the
`email` field, limited to 10 documents, projected to
`{uid, email, displayName}` with `displayName || email` fallback.
Read-only: the store is not modified. -/
def searchUsersByEmail (env auth : Option String) (searchTerm : String)
    (profiles : DocStore UserDoc) : Except HErr (List SearchRecord) :=
  let appId := appIdFromEnv env
  match assertAdmin auth appId profiles with
  | .error e => .error e
  | .ok _ =>
    if searchTerm.length < 2 then
      .ok []
    else
      .ok (((profiles.filter (fun kv =>
          match kv.2.email with
          | some (some s) => emailInRange searchTerm s
          | _ => false)).take 10).map (fun kv => toSearchRecord kv.2))

/-! ### Store lemmas -/

theorem getDoc_setDoc (l : DocStore δ) (q p : String) (d : δ) :
    getDoc (setDoc l q d) p = if p = q then some d else getDoc l p := by
  induction l with
  | nil =>
    by_cases h : p = q
    · subst h; simp [setDoc, getDoc]
    · simp [setDoc, getDoc, h, Ne.symm h]
  | cons kv rest ih =>
    by_cases hk : kv.1 = q
    · by_cases h : p = q
      · subst h; simp [setDoc, getDoc, hk]
      · simp [setDoc, getDoc, hk, h, Ne.symm h]
    · by_cases h2 : kv.1 = p
      · have hpq : ¬ p = q := fun hpq => hk (h2.trans hpq)
        simp [setDoc, getDoc, hk, h2, hpq]
      · simp [setDoc, getDoc, hk, h2, ih]

theorem getDoc_setDoc_self (l : DocStore δ) (p : String) (d : δ) :
    getDoc (setDoc l p d) p = some d := by
  rw [getDoc_setDoc]
  simp

theorem setDoc_setDoc (l : DocStore δ) (p : String) (d d' : δ) :
    setDoc (setDoc l p d) p d' = setDoc l p d' := by
  induction l with
  | nil => simp [setDoc]
  | cons kv rest ih =>
    by_cases hk : kv.1 = p <;> simp [setDoc, hk, ih]

/-! ### Step lemmas for ownership transfer -/

theorem getDoc_ownerProfileStep_ne (appId em oid q : String) (n : Nat)
    (l : DocStore UserDoc) (h : q ≠ getUserProfilePath appId oid) :
    getDoc (ownerProfileStep appId em oid n l) q = getDoc l q := by
  cases hg : getDoc l (getUserProfilePath appId oid) with
  | none => simp [ownerProfileStep, hg, getDoc_setDoc, h]
  | some snap =>
    by_cases hr : snap.role = some "user" <;>
      simp [ownerProfileStep, hg, hr, getDoc_setDoc, h]

theorem ownerProfileStep_idem (appId em oid : String) (n1 n2 : Nat)
    (l : DocStore UserDoc) :
    ownerProfileStep appId em oid n2 (ownerProfileStep appId em oid n1 l)
      = ownerProfileStep appId em oid n1 l := by
  cases hg : getDoc l (getUserProfilePath appId oid) with
  | none => simp [ownerProfileStep, hg, getDoc_setDoc]
  | some snap =>
    by_cases hr : snap.role = some "user" <;>
      simp [ownerProfileStep, hg, hr, getDoc_setDoc]

theorem getDoc_ownerProfileStep_admin (appId em oid q : String) (n : Nat)
    (l : DocStore UserDoc) (doc : UserDoc)
    (hg : getDoc l q = some doc) (hr : doc.role = some "admin") :
    getDoc (ownerProfileStep appId em oid n l) q = some doc := by
  by_cases hq : q = getUserProfilePath appId oid
  · subst hq
    have hnu : doc.role ≠ some "user" := by rw [hr]; decide
    simp only [ownerProfileStep, hg]
    rw [if_neg hnu]
    exact hg
  · rw [getDoc_ownerProfileStep_ne appId em oid q n l hq, hg]

theorem assertAdmin_ownerProfileStep (auth : Option String) (appId em oid : String)
    (n : Nat) (l : DocStore UserDoc) (h : assertAdmin auth appId l = .ok ()) :
    assertAdmin auth appId (ownerProfileStep appId em oid n l) = .ok () := by
  cases auth with
  | none => simp [assertAdmin] at h
  | some u =>
    simp only [assertAdmin] at h ⊢
    cases hg : getDoc l (getUserProfilePath appId u) with
    | none => simp only [hg] at h; exact absurd h (by simp)
    | some doc =>
      simp only [hg] at h
      by_cases hr : doc.role = some "admin"
      · simp only [getDoc_ownerProfileStep_admin appId em oid _ n l doc hg hr]
        rw [if_pos hr]
      · rw [if_neg hr] at h; exact absurd h (by simp)

theorem applySalonUpdate_comp (data : UpdateSalonReq) (oid : Option String)
    (n1 n2 : Nat) (s : SalonDoc) :
    applySalonUpdate data oid n2 (applySalonUpdate data oid n1 s)
      = applySalonUpdate data oid n2 s := by
  unfold applySalonUpdate
  cases oid <;>
    by_cases h1 : jsTruthy data.name <;>
    by_cases h2 : jsTruthy data.address <;>
    by_cases h3 : jsTruthy data.description <;>
    simp [h1, h2, h3]

theorem applySalonUpdate_ownerId (data : UpdateSalonReq) (oid : Option String)
    (n : Nat) (s : SalonDoc) :
    (applySalonUpdate data oid n s).ownerId
      = match oid with | some o => some o | none => s.ownerId := rfl

theorem ownerProfilePhase_idem (appId : String) (data : UpdateSalonReq)
    (o : Option String) (n1 n2 : Nat) (l : DocStore UserDoc) :
    ownerProfilePhase appId data o n2 (ownerProfilePhase appId data o n1 l)
      = ownerProfilePhase appId data o n1 l := by
  cases o with
  | none => rfl
  | some oid =>
    cases hem : data.ownerEmail with
    | none => simp [ownerProfilePhase, hem]
    | some em => simp [ownerProfilePhase, hem, ownerProfileStep_idem]

theorem assertAdmin_ownerProfilePhase (auth : Option String) (appId : String)
    (data : UpdateSalonReq) (o : Option String) (n : Nat)
    (l : DocStore UserDoc) (h : assertAdmin auth appId l = .ok ()) :
    assertAdmin auth appId (ownerProfilePhase appId data o n l) = .ok () := by
  cases o with
  | none => exact h
  | some oid =>
    cases hem : data.ownerEmail with
    | none => simp only [ownerProfilePhase, hem]; exact h
    | some em =>
      simp only [ownerProfilePhase, hem]
      exact assertAdmin_ownerProfileStep auth appId em oid n l h

theorem updateSalonWrite_profiles (appId : String) (data : UpdateSalonReq)
    (o : Option String) (n : Nat) (st : Store) :
    ((updateSalonWrite appId data o n st).2).profiles
      = ownerProfilePhase appId data o n st.profiles := by
  cases hg : getDoc st.salons (getSalonsCollectionPath appId ++ "/" ++ data.id) <;>
    simp [updateSalonWrite, hg]

theorem updateSalonWrite_replay (appId : String) (data : UpdateSalonReq)
    (ownerIdT : Option String) (n1 n2 : Nat) (st : Store) :
    (n2 = n1 →
      (updateSalonWrite appId data ownerIdT n2
          (updateSalonWrite appId data ownerIdT n1 st).2).2
        = (updateSalonWrite appId data ownerIdT n1 st).2)
    ∧ ((updateSalonWrite appId data ownerIdT n2
          (updateSalonWrite appId data ownerIdT n1 st).2).2).profiles
        = ((updateSalonWrite appId data ownerIdT n1 st).2).profiles
    ∧ ∀ p, (getDoc ((updateSalonWrite appId data ownerIdT n2
          (updateSalonWrite appId data ownerIdT n1 st).2).2).salons p).map SalonDoc.ownerId
        = (getDoc ((updateSalonWrite appId data ownerIdT n1 st).2).salons p).map SalonDoc.ownerId := by
  cases hg1 : getDoc st.salons (getSalonsCollectionPath appId ++ "/" ++ data.id) with
  | none =>
    simp only [updateSalonWrite, hg1]
    refine ⟨fun _ => ?_, ?_, fun p => ?_⟩
    · simp [ownerProfilePhase_idem]
    · simp [ownerProfilePhase_idem]
    · trivial
  | some sal =>
    have hsd : getDoc (setDoc st.salons (getSalonsCollectionPath appId ++ "/" ++ data.id)
          (applySalonUpdate data ownerIdT n1 sal))
          (getSalonsCollectionPath appId ++ "/" ++ data.id)
        = some (applySalonUpdate data ownerIdT n1 sal) := by
      rw [getDoc_setDoc]; simp
    simp only [updateSalonWrite, hg1, hsd]
    refine ⟨fun hn => ?_, ?_, fun p => ?_⟩
    · subst hn
      simp [ownerProfilePhase_idem, applySalonUpdate_comp, setDoc_setDoc]
    · simp [ownerProfilePhase_idem]
    · simp only [getDoc_setDoc]
      by_cases hp : p = getSalonsCollectionPath appId ++ "/" ++ data.id
      · simp only [if_pos hp, Option.map_some]
        cases ownerIdT <;> simp [applySalonUpdate_ownerId]
      · simp [if_neg hp]

/-! ### Concrete fixtures and claim theorems -/

/-- Fixture: an admin caller `adm`, a prospective owner `own` whose
profile carries the default role `customer`, and an existing salon `s1`,
all under app id `default-app-id`. -/
def promoStore : Store :=
  { profiles :=
      [(getUserProfilePath "default-app-id" "adm", { uid := some "adm", role := some "admin" }),
       (getUserProfilePath "default-app-id" "own", { uid := some "own", role := some "customer" })],
    salons :=
      [(getSalonsCollectionPath "default-app-id" ++ "/s1",
        { name := some "S", ownerId := some "prev" })] }

/-- C1: ownership transfer to an owner whose profile has the default
role `'customer'` succeeds and reassigns the salon's `ownerId`, but the
owner's role is left at `'customer'` — the promotion branch fires only on
the literal role `'user'` (a value outside the declared `UserRole` enum
`'admin' | 'customer'`), so the unprivileged default role is never
promoted as the claim requires. -/
theorem updateSalon_leaves_customer_role_unpromoted :
    (updateSalon none (some "adm") { id := "s1", ownerEmail := some "o@x" }
        (fun _ => .found "own") 9 promoStore).1 = .ok "Salon updated successfully!"
    ∧ (getDoc (updateSalon none (some "adm") { id := "s1", ownerEmail := some "o@x" }
        (fun _ => .found "own") 9 promoStore).2.profiles
        (getUserProfilePath "default-app-id" "own")).map UserDoc.role
      = some (some "customer")
    ∧ (getDoc (updateSalon none (some "adm") { id := "s1", ownerEmail := some "o@x" }
        (fun _ => .found "own") 9 promoStore).2.salons
        (getSalonsCollectionPath "default-app-id" ++ "/s1")).map SalonDoc.ownerId
      = some (some "own") := by decide

/-- Fixture: a lone `customer` profile for `u` under `default-app-id`,
with `createdAt = lastLoginAt = 5`. -/
def frozenFieldStore : DocStore UserDoc :=
  [(getUserProfilePath "default-app-id" "u",
    { uid := some "u", role := some "customer", createdAt := some 5, lastLoginAt := some 5 })]

/-- C2 counterexample: a self-update whose patch contains `createdAt`
succeeds and overwrites the stored `createdAt` (5 becomes 99): the
handler strips only `targetUid` and `role` from the patch, so `uid`,
`createdAt` and `lastLoginAt` pass through the `...updates` spread into
the document write. -/
theorem updateProfile_patch_overwrites_createdAt :
    (updateAuthUserProfile none (some "u") { createdAt := some 99 } true 7 frozenFieldStore).1
      = .ok "User profile updated successfully!"
    ∧ (getDoc frozenFieldStore (getUserProfilePath "default-app-id" "u")).map UserDoc.createdAt
      = some (some 5)
    ∧ (getDoc (updateAuthUserProfile none (some "u") { createdAt := some 99 } true 7
        frozenFieldStore).2 (getUserProfilePath "default-app-id" "u")).map UserDoc.createdAt
      = some (some 99) := by decide

/-- Fixture: a lone admin profile for `adm2` and no salons. -/
def addSalonStore : Store :=
  { profiles :=
      [(getUserProfilePath "default-app-id" "adm2", { uid := some "adm2", role := some "admin" })],
    salons := [] }

/-- The `addSalon` request used against the C3 claim: all required
fields supplied, with an owner email that matches no account. -/
def ghostOwnerReq : AddSalonReq :=
  { name := some "N", address := some "A", description := some "D",
    ownerEmail := some "ghost@x.com" }

/-- C3 counterexample: `addSalon` assigns an owner by email with no
identity-provider lookup at all (the handler takes no lookup
collaborator): the call succeeds for an arbitrary email and stores the
raw email string itself as the salon's `ownerId`, instead of failing
with `NotFound` when no account matches. -/
theorem addSalon_stores_unresolved_email :
    (addSalon none (some "adm2") ghostOwnerReq "n1" 4 addSalonStore).1 = .ok "n1"
    ∧ (getDoc (addSalon none (some "adm2") ghostOwnerReq "n1" 4 addSalonStore).2.salons
        (getSalonsCollectionPath "default-app-id" ++ "/n1")).map SalonDoc.ownerId
      = some (some "ghost@x.com") := by decide

/-- C4: the profile document written by `ensureUserProfile` (path built
from the hardcoded app id) is invisible to `updateAuthUserProfile` (path
built from `FIREBASE_APP_ID || 'default-app-id'`): with the environment
variable unset, a user who has just been provisioned gets `not-found`
when updating their own profile, because the two handlers compute
different document keys. -/
theorem profile_path_mismatch_between_handlers :
    (updateAuthUserProfile none (some "u1") {} true 2
        (ensureUserProfile (some { uid := "u1" }) 1 []).2).1 = .error .notFound
    ∧ getUserProfilePath hardcodedAppId "u1" ≠ getUserProfilePath (appIdFromEnv none) "u1"
    := by decide

/-- Fixture: a lone `customer` profile for `v` under `default-app-id`. -/
def mirrorStore : DocStore UserDoc :=
  [(getUserProfilePath "default-app-id" "v", { uid := some "v", role := some "customer" })]

/-- C5 counterexample: when the best-effort identity-provider mirror
fails after a successful profile write, the call does NOT return
success: the failure is caught by the handler's single `try` and
rethrown as `internal` — while the profile document already carries the
new `displayName` (the write is not rolled back). -/
theorem updateProfile_mirror_failure_rethrown :
    (updateAuthUserProfile none (some "v") { displayName := some (some "X") } false 7
        mirrorStore).1 = .error .internal
    ∧ (getDoc (updateAuthUserProfile none (some "v") { displayName := some (some "X") } false 7
        mirrorStore).2 (getUserProfilePath "default-app-id" "v")).map UserDoc.displayName
      = some (some (some "X")) := by decide

/-- C7: under the interleaving read(A), read(B), set(A), set(B) of two
concurrent first-time `ensureUserProfile` calls for the same new uid,
the store holds the second caller's freshly built document wholesale:
the first call's creation (its claims, its `createdAt = 1`) is silently
overwritten, because the creation path is a read-then-branch with an
unconditional `set`, not a conditional create. -/
theorem ensure_race_drops_first_creation :
    getDoc (ensureTwoFirstLoginsInterleaved { uid := "u", email := some "a@x" }
        { uid := "u", email := some "b@x" } 1 2 [])
        (getUserProfilePath hardcodedAppId "u")
      = some (ensureNewDoc { uid := "u", email := some "b@x" } 2)
    ∧ (ensureNewDoc { uid := "u", email := some "b@x" } 2).createdAt = some 2
    ∧ (ensureNewDoc { uid := "u", email := some "b@x" } 2).email = some (some "b@x")
    ∧ ensureNewDoc { uid := "u", email := some "b@x" } 2
        ≠ ensureNewDoc { uid := "u", email := some "a@x" } 1 := by decide

/-- Fixture: a lone `customer` profile for caller `c` under
`default-app-id`; the target `t` has no profile. -/
def orderingStore : DocStore UserDoc :=
  [(getUserProfilePath "default-app-id" "c", { uid := some "c", role := some "customer" })]

/-- C8 counterexample: a non-admin caller updating another user's uid
whose profile is absent receives `not-found`, not `permission-denied`:
the handler reads the target document and produces its absence outcome
before the authorization check runs. -/
theorem updateProfile_absent_target_yields_notFound :
    (updateAuthUserProfile none (some "c") { targetUid := some "t" } true 7 orderingStore).1
      = .error .notFound
    ∧ (HErr.notFound ≠ HErr.permissionDenied) := by decide

/-- C9: ownership transfer is idempotent.  Replaying `updateSalon` with
the same request and lookup against the state left by a first invocation
changes nothing the claim observes: with the same server timestamp the
final store is identical, and for any replay timestamp the whole profile
store (so the owner's role: no double promotion) and every salon's
`ownerId` (a stable overwrite) are unchanged. -/
theorem updateSalon_idempotent (env auth : Option String) (data : UpdateSalonReq)
    (lookup : String → LookupResult) (n1 n2 : Nat) (st : Store) :
    (n2 = n1 →
      (updateSalon env auth data lookup n2 (updateSalon env auth data lookup n1 st).2).2
        = (updateSalon env auth data lookup n1 st).2)
    ∧ ((updateSalon env auth data lookup n2 (updateSalon env auth data lookup n1 st).2).2).profiles
        = ((updateSalon env auth data lookup n1 st).2).profiles
    ∧ ∀ p, (getDoc ((updateSalon env auth data lookup n2
          (updateSalon env auth data lookup n1 st).2).2).salons p).map SalonDoc.ownerId
        = (getDoc ((updateSalon env auth data lookup n1 st).2).salons p).map SalonDoc.ownerId := by
  cases hA : assertAdmin auth (appIdFromEnv env) st.profiles with
  | error e =>
    simp only [updateSalon, hA]
    exact ⟨fun _ => trivial, trivial, fun p => trivial⟩
  | ok u =>
    cases u
    by_cases hV : (data.id = "" ∨ (¬ jsTruthy data.name ∧ ¬ jsTruthy data.address
        ∧ ¬ jsTruthy data.description ∧ ¬ jsTruthy data.ownerEmail))
    · simp only [updateSalon, hA, if_pos hV]
      exact ⟨fun _ => trivial, trivial, fun p => trivial⟩
    · cases hR : resolveOwner data.ownerEmail lookup with
      | error e =>
        simp only [updateSalon, hA, if_neg hV, hR]
        exact ⟨fun _ => trivial, trivial, fun p => trivial⟩
      | ok ownerId =>
        have hA2 : assertAdmin auth (appIdFromEnv env)
            ((updateSalonWrite (appIdFromEnv env) data (truthyOwner ownerId) n1 st).2).profiles
            = .ok () := by
          rw [updateSalonWrite_profiles]
          exact assertAdmin_ownerProfilePhase auth (appIdFromEnv env) data
            (truthyOwner ownerId) n1 st.profiles hA
        simp only [updateSalon, hA, hA2, if_neg hV, hR]
        exact updateSalonWrite_replay (appIdFromEnv env) data (truthyOwner ownerId) n1 n2 st

/-- Fixture for the idempotence witness: admin `root`, an owner `w`
whose stored role is the literal `'user'` (so the first transfer
exercises the promotion write), and salon `s9`. -/
def replayStore : Store :=
  { profiles :=
      [(getUserProfilePath "default-app-id" "root", { uid := some "root", role := some "admin" }),
       (getUserProfilePath "default-app-id" "w", { uid := some "w", role := some "user" })],
    salons := [(getSalonsCollectionPath "default-app-id" ++ "/s9", { name := some "S9" })] }

/-- Witness for `updateSalon_idempotent` at a concrete transfer whose
first run promotes the owner and reassigns the salon. -/
theorem updateSalon_idempotent_witness :
    (updateSalon none (some "root") { id := "s9", ownerEmail := some "w@x" }
        (fun _ => .found "w") 9
        (updateSalon none (some "root") { id := "s9", ownerEmail := some "w@x" }
          (fun _ => .found "w") 9 replayStore).2).2
      = (updateSalon none (some "root") { id := "s9", ownerEmail := some "w@x" }
          (fun _ => .found "w") 9 replayStore).2 :=
  (updateSalon_idempotent none (some "root") { id := "s9", ownerEmail := some "w@x" }
    (fun _ => .found "w") 9 9 replayStore).1 rfl

/-- C6: for an identity never seen before, one `ensureUserProfile` call
creates exactly one profile (a single write at the identity's path) with
`role = 'customer'`, `createdAt = lastLoginAt = now`, empty
`ownedSalons`/`associatedSalons`/`favoriteSalons` and null `address`;
a second call for the same uid — with arbitrary, possibly changed,
identity-provider claims `b` — changes only `lastLoginAt`. -/
theorem ensureUserProfile_provisioning (a b : AuthToken) (n1 n2 : Nat)
    (profiles : DocStore UserDoc)
    (hfresh : getDoc profiles (getUserProfilePath hardcodedAppId a.uid) = none)
    (hb : b.uid = a.uid) :
    ensureUserProfile (some a) n1 profiles
      = (.ok (ensureNewDoc a n1),
         setDoc profiles (getUserProfilePath hardcodedAppId a.uid) (ensureNewDoc a n1))
    ∧ (ensureNewDoc a n1).role = some "customer"
    ∧ (ensureNewDoc a n1).createdAt = some n1
    ∧ (ensureNewDoc a n1).lastLoginAt = some n1
    ∧ (ensureNewDoc a n1).ownedSalons = some []
    ∧ (ensureNewDoc a n1).associatedSalons = some []
    ∧ (ensureNewDoc a n1).favoriteSalons = some []
    ∧ (ensureNewDoc a n1).address = some none
    ∧ ensureUserProfile (some b) n2
        (setDoc profiles (getUserProfilePath hardcodedAppId a.uid) (ensureNewDoc a n1))
      = (.ok { ensureNewDoc a n1 with lastLoginAt := some n2 },
         setDoc (setDoc profiles (getUserProfilePath hardcodedAppId a.uid) (ensureNewDoc a n1))
           (getUserProfilePath hardcodedAppId a.uid)
           { ensureNewDoc a n1 with lastLoginAt := some n2 }) := by
  have hget : getDoc (setDoc profiles (getUserProfilePath hardcodedAppId a.uid)
        (ensureNewDoc a n1)) (getUserProfilePath hardcodedAppId a.uid)
      = some (ensureNewDoc a n1) := by
    rw [getDoc_setDoc]; simp
  refine ⟨?_, rfl, rfl, rfl, rfl, rfl, rfl, rfl, ?_⟩
  · simp [ensureUserProfile, hfresh]
  · simp [ensureUserProfile, hb, hget]

/-- Witness for `ensureUserProfile_provisioning`: a fresh uid on the
empty store, re-visited later with changed claims. -/
theorem ensureUserProfile_provisioning_witness :
    getDoc ([] : DocStore UserDoc) (getUserProfilePath hardcodedAppId "u6") = none
    ∧ (ensureNewDoc { uid := "u6", email := some "e6" } 1).role = some "customer" :=
  ⟨rfl, (ensureUserProfile_provisioning { uid := "u6", email := some "e6" }
    { uid := "u6", name := some "changed" } 1 5 [] rfl rfl).2.1⟩

/-- C2 (amended): `updateAuthUserProfile` strips only `targetUid` and
`role` from the request; `uid`, `createdAt` and `lastLoginAt` are left
untouched exactly when the patch itself does not supply them — for any
patch omitting those three fields, every stored document's `uid`,
`createdAt` and `lastLoginAt` are unchanged by the call. -/
theorem updateProfile_frames_unpatched_identity_fields
    (env auth : Option String) (data : UpdateProfileReq) (mirrorOk : Bool)
    (now : Nat) (profiles : DocStore UserDoc) (p : String)
    (h1 : data.uid = none) (h2 : data.createdAt = none) (h3 : data.lastLoginAt = none) :
    (getDoc (updateAuthUserProfile env auth data mirrorOk now profiles).2 p).map
        (fun d => (d.uid, d.createdAt, d.lastLoginAt))
      = (getDoc profiles p).map (fun d => (d.uid, d.createdAt, d.lastLoginAt)) := by
  cases auth with
  | none => rfl
  | some callerUid =>
    simp only [updateAuthUserProfile]
    cases hg : getDoc profiles
        (getUserProfilePath (appIdFromEnv env) (jsOr data.targetUid callerUid)) with
    | none => rfl
    | some cur =>
      have hkey : (getDoc (setDoc profiles
            (getUserProfilePath (appIdFromEnv env) (jsOr data.targetUid callerUid))
            (applyProfileUpdates cur data now)) p).map
              (fun d => (d.uid, d.createdAt, d.lastLoginAt))
          = (getDoc profiles p).map (fun d => (d.uid, d.createdAt, d.lastLoginAt)) := by
        rw [getDoc_setDoc]
        by_cases hp : p = getUserProfilePath (appIdFromEnv env) (jsOr data.targetUid callerUid)
        · rw [if_pos hp, hp, hg]
          simp [applyProfileUpdates, updField, h1, h2, h3]
        · rw [if_neg hp]
      by_cases hc1 : callerUid ≠ jsOr data.targetUid callerUid
          ∧ callerIsAdmin profiles (appIdFromEnv env) callerUid = false
      · simp only [if_pos hc1]
      · simp only [if_neg hc1]
        by_cases hc2 : (match data.role with
            | some r => (decide (callerUid ≠ jsOr data.targetUid callerUid)
                || decide (cur.role ≠ some r))
                && !(callerIsAdmin profiles (appIdFromEnv env) callerUid)
            | none => false) = true
        · simp only [if_pos hc2]
        · simp only [if_neg hc2]
          by_cases hc3 : (jsTruthyN data.displayName = true ∨ jsTruthyN data.photoURL = true)
              ∧ mirrorOk = false
          · simp only [if_pos hc3]
            exact hkey
          · simp only [if_neg hc3]
            exact hkey

/-- Witness for `updateProfile_frames_unpatched_identity_fields`: a
self-update patching only `phoneNumber` leaves `uid`, `createdAt`,
`lastLoginAt` intact. -/
theorem updateProfile_frames_witness :
    (getDoc (updateAuthUserProfile none (some "u")
        { phoneNumber := some (some "555") } true 7 frozenFieldStore).2
        (getUserProfilePath "default-app-id" "u")).map
        (fun d => (d.uid, d.createdAt, d.lastLoginAt))
      = (getDoc frozenFieldStore (getUserProfilePath "default-app-id" "u")).map
        (fun d => (d.uid, d.createdAt, d.lastLoginAt)) :=
  updateProfile_frames_unpatched_identity_fields none (some "u")
    { phoneNumber := some (some "555") } true 7 frozenFieldStore
    (getUserProfilePath "default-app-id" "u") rfl rfl rfl

/-- C5 (amended): the best-effort mirror cannot touch the store — the
state after the call is the same whether the mirror succeeds or fails
(the committed profile write is never rolled back) — but a mirror
failure after a successful write is surfaced to the caller as
`internal` instead of success, whenever the patch gave `displayName` or
`photoURL` a truthy value (the condition under which the mirror is
attempted). -/
theorem updateProfile_mirror_nonrollback
    (env auth : Option String) (data : UpdateProfileReq) (now : Nat)
    (profiles : DocStore UserDoc) :
    (updateAuthUserProfile env auth data false now profiles).2
      = (updateAuthUserProfile env auth data true now profiles).2
    ∧ ((jsTruthyN data.displayName ∨ jsTruthyN data.photoURL) →
       ∀ m, (updateAuthUserProfile env auth data true now profiles).1 = .ok m →
       (updateAuthUserProfile env auth data false now profiles).1 = .error .internal) := by
  cases auth with
  | none =>
    refine ⟨rfl, fun _ m hm => ?_⟩
    exact absurd hm (by simp [updateAuthUserProfile])
  | some callerUid =>
    simp only [updateAuthUserProfile]
    cases hg : getDoc profiles
        (getUserProfilePath (appIdFromEnv env) (jsOr data.targetUid callerUid)) with
    | none => exact ⟨rfl, fun _ m hm => absurd hm (by simp)⟩
    | some cur =>
      by_cases hc1 : callerUid ≠ jsOr data.targetUid callerUid
          ∧ callerIsAdmin profiles (appIdFromEnv env) callerUid = false
      · simp only [if_pos hc1]
        exact ⟨trivial, fun _ m hm => absurd hm (by simp)⟩
      · simp only [if_neg hc1]
        by_cases hc2 : (match data.role with
            | some r => (decide (callerUid ≠ jsOr data.targetUid callerUid)
                || decide (cur.role ≠ some r))
                && !(callerIsAdmin profiles (appIdFromEnv env) callerUid)
            | none => false) = true
        · simp only [if_pos hc2]
          exact ⟨trivial, fun _ m hm => absurd hm (by simp)⟩
        · simp only [if_neg hc2]
          constructor
          · by_cases htr : jsTruthyN data.displayName = true ∨ jsTruthyN data.photoURL = true
            · rcases htr with h | h <;> simp [h]
            · rw [not_or] at htr
              simp [htr.1, htr.2]
          · intro htr m _
            rcases htr with h | h <;> simp [h]

/-- Witness for `updateProfile_mirror_nonrollback`: the concrete
mirror-failure run returns `internal`. -/
theorem updateProfile_mirror_nonrollback_witness :
    (updateAuthUserProfile none (some "v") { displayName := some (some "X") } false 7
        mirrorStore).1 = .error .internal :=
  (updateProfile_mirror_nonrollback none (some "v")
      { displayName := some (some "X") } 7 mirrorStore).2
    (by decide) "User profile updated successfully!" (by decide)

/-- C8 (amended): `updateAuthUserProfile` checks authentication first,
but then reads the target profile and produces `not-found` for an
absent target before any authorization check; only when the target
exists does a non-admin caller updating another user receive
`permission-denied`. -/
theorem updateProfile_check_order
    (env : Option String) (data : UpdateProfileReq) (mirrorOk : Bool)
    (now : Nat) (profiles : DocStore UserDoc) :
    (updateAuthUserProfile env none data mirrorOk now profiles
      = (.error .unauthenticated, profiles))
    ∧ (∀ callerUid,
        getDoc profiles (getUserProfilePath (appIdFromEnv env)
          (jsOr data.targetUid callerUid)) = none →
        updateAuthUserProfile env (some callerUid) data mirrorOk now profiles
          = (.error .notFound, profiles))
    ∧ (∀ callerUid cur,
        getDoc profiles (getUserProfilePath (appIdFromEnv env)
          (jsOr data.targetUid callerUid)) = some cur →
        callerUid ≠ jsOr data.targetUid callerUid →
        callerIsAdmin profiles (appIdFromEnv env) callerUid = false →
        updateAuthUserProfile env (some callerUid) data mirrorOk now profiles
          = (.error .permissionDenied, profiles)) := by
  refine ⟨rfl, fun c hg => ?_, fun c cur hg hne hnadm => ?_⟩
  · simp [updateAuthUserProfile, hg]
  · simp only [updateAuthUserProfile, hg]
    rw [if_pos ⟨hne, hnadm⟩]

/-- Witness for `updateProfile_check_order`: the non-admin caller `c`
targeting the absent uid `t` receives `not-found`. -/
theorem updateProfile_check_order_witness :
    updateAuthUserProfile none (some "c") { targetUid := some "t" } true 8 orderingStore
      = (.error .notFound, orderingStore) :=
  (updateProfile_check_order none { targetUid := some "t" } true 8 orderingStore).2.1
    "c" (by decide)

/-- C3 (amended): only `updateSalon` resolves `ownerEmail` through the
identity provider — failing `not-found` when no account matches,
`internal` on any other lookup failure, and storing the resolved account
id as the salon's `ownerId` on success — while `addSalon` consults no
provider at all and stores the supplied email string itself as the
owner identifier. -/
theorem owner_email_resolution
    (env auth : Option String) (data : UpdateSalonReq)
    (lookup : String → LookupResult) (now : Nat) (st : Store) (em : String)
    (hadmin : assertAdmin auth (appIdFromEnv env) st.profiles = .ok ())
    (hid : data.id ≠ "") (hem : data.ownerEmail = some em) (hne : em ≠ "") :
    (lookup em = .userNotFound →
      updateSalon env auth data lookup now st = (.error .notFound, st))
    ∧ (lookup em = .failure →
      updateSalon env auth data lookup now st = (.error .internal, st))
    ∧ (∀ oid, lookup em = .found oid → oid ≠ "" →
        ∀ m st', updateSalon env auth data lookup now st = (.ok m, st') →
        (getDoc st'.salons
            (getSalonsCollectionPath (appIdFromEnv env) ++ "/" ++ data.id)).map SalonDoc.ownerId
          = some (some oid))
    ∧ (∀ (d2 : AddSalonReq) (newId : String) (n2 : Nat) (st2 : Store)
          (m : String) (st2' : Store),
        addSalon env auth d2 newId n2 st2 = (.ok m, st2') →
        (getDoc st2'.salons
            (getSalonsCollectionPath (appIdFromEnv env) ++ "/" ++ newId)).map SalonDoc.ownerId
          = some d2.ownerEmail) := by
  have hvalid : ¬(data.id = "" ∨ (¬ jsTruthy data.name ∧ ¬ jsTruthy data.address
      ∧ ¬ jsTruthy data.description ∧ ¬ jsTruthy data.ownerEmail)) := by
    intro h
    rcases h with h | h
    · exact hid h
    · rw [hem] at h
      exact absurd (by simp [jsTruthy, hne] : jsTruthy (some em) = true) h.2.2.2
  have hred : updateSalon env auth data lookup now st
      = (match resolveOwner data.ownerEmail lookup with
         | .error e => (.error e, st)
         | .ok ownerId =>
           updateSalonWrite (appIdFromEnv env) data (truthyOwner ownerId) now st) := by
    simp only [updateSalon, hadmin]
    rw [if_neg hvalid]
  have hres : ∀ (r : LookupResult), lookup em = r →
      resolveOwner data.ownerEmail lookup
        = (match r with
           | .found uid => .ok (some uid)
           | .userNotFound => .error .notFound
           | .failure => .error .internal) := by
    intro r hr
    simp [resolveOwner, hem, hne, hr]
  refine ⟨fun hL => ?_, fun hL => ?_, fun oid hL hoid m st' heq => ?_,
    fun d2 newId n2 st2 m st2' heq => ?_⟩
  · rw [hred, hres _ hL]
  · rw [hred, hres _ hL]
  · have htr : truthyOwner (some oid) = some oid := by simp [truthyOwner, hoid]
    rw [hred] at heq
    simp only [hres _ hL, htr] at heq
    cases hsal : getDoc st.salons
        (getSalonsCollectionPath (appIdFromEnv env) ++ "/" ++ data.id) with
    | none =>
      simp only [updateSalonWrite, hsal] at heq
      exact absurd heq (by simp)
    | some sal =>
      simp only [updateSalonWrite, hsal] at heq
      injection heq with hmsg hst
      rw [← hst, getDoc_setDoc_self]
      simp [applySalonUpdate_ownerId]
  · cases hA2 : assertAdmin auth (appIdFromEnv env) st2.profiles with
    | error e =>
      simp only [addSalon, hA2] at heq
      exact absurd heq (by simp)
    | ok u =>
      cases u
      simp only [addSalon, hA2] at heq
      by_cases hv2 : ¬ jsTruthy d2.name = true ∨ ¬ jsTruthy d2.address = true
          ∨ ¬ jsTruthy d2.description = true ∨ ¬ jsTruthy d2.ownerEmail = true
      · rw [if_pos hv2] at heq
        exact absurd heq (by simp)
      · rw [if_neg hv2] at heq
        injection heq with hmsg hst
        rw [← hst, getDoc_setDoc_self]
        rfl

/-- Witness for `owner_email_resolution`: an admin transfer whose owner
email matches no account fails with `not-found` and writes nothing. -/
theorem owner_email_resolution_witness :
    updateSalon none (some "adm2") { id := "s0", ownerEmail := some "no@x" }
        (fun _ => .userNotFound) 3 addSalonStore
      = (.error .notFound, addSalonStore) :=
  (owner_email_resolution none (some "adm2") { id := "s0", ownerEmail := some "no@x" }
    (fun _ => .userNotFound) 3 addSalonStore "no@x" (by decide) (by decide) rfl
    (by decide)).1 rfl

/-- Lexicographic range bound implies string-prefix: any character list
between `t` and `t ++ [c]` in the order `lexLe` starts with `t` — the
correctness of Firestore's `[term, term + sentinel]` prefix-query idiom. -/
theorem lexLe_bounds_isPrefixOf :
    ∀ (t s : List Char) (c : Char), lexLe t s = true → lexLe s (t ++ [c]) = true →
      t.isPrefixOf s = true
  | [], s, _, _, _ => by cases s <;> rfl
  | _ :: _, [], _, h1, _ => by simp [lexLe] at h1
  | a :: as, b :: bs, c, h1, h2 => by
    by_cases hab : a < b
    · exfalso
      have hba : ¬ b < a := lt_asymm hab
      have hbea : ¬ b = a := fun h => absurd hab (by rw [h]; exact lt_irrefl a)
      simp [List.cons_append, lexLe, hba, hbea] at h2
    · by_cases heq : a = b
      · subst heq
        simp only [lexLe, if_neg hab, if_pos rfl] at h1
        have h2' : lexLe bs (as ++ [c]) = true := by
          simpa [List.cons_append, lexLe, lt_self_iff_false] using h2
        simp [List.isPrefixOf, lexLe_bounds_isPrefixOf as bs c h1 h2']
      · simp [lexLe, hab, heq] at h1

/-- C10: `searchUsersByEmail` called by an admin returns `ok []` for a
term shorter than 2 characters whatever the directory holds; for longer
terms every returned record is the `{uid, email, displayName}` projection
of a stored profile, its email is a string starting with the term, at
most 10 records are returned, and `displayName` falls back to the email
when the stored one is absent/falsy. -/
theorem searchUsersByEmail_spec (env auth : Option String) (term : String)
    (profiles : DocStore UserDoc)
    (hadmin : assertAdmin auth (appIdFromEnv env) profiles = .ok ()) :
    (term.length < 2 → searchUsersByEmail env auth term profiles = .ok [])
    ∧ ∀ rs, searchUsersByEmail env auth term profiles = .ok rs →
        rs.length ≤ 10
        ∧ ∀ r ∈ rs,
            (∃ s, r.email = some (some s) ∧ term.data.isPrefixOf s.data = true)
            ∧ ∃ p d, (p, d) ∈ profiles ∧ r = toSearchRecord d
              ∧ (jsTruthyN d.displayName = false → r.displayName = d.email) := by
  constructor
  · intro hlen
    simp [searchUsersByEmail, hadmin, if_pos hlen]
  · intro rs hrs
    by_cases hlen : term.length < 2
    · simp only [searchUsersByEmail, hadmin, if_pos hlen] at hrs
      injection hrs with hrs
      subst hrs
      exact ⟨by simp, fun r hr => absurd hr (List.not_mem_nil r)⟩
    · simp only [searchUsersByEmail, hadmin, if_neg hlen] at hrs
      injection hrs with hrs
      subst hrs
      constructor
      · rw [List.length_map, List.length_take]
        exact min_le_left _ _
      · intro r hr
        obtain ⟨kv, hkv, hrr⟩ := List.mem_map.mp hr
        have hkv' := List.mem_filter.mp (List.mem_of_mem_take hkv)
        obtain ⟨hmem, hpred⟩ := hkv'
        subst hrr
        cases hml : kv.2.email with
        | none => rw [hml] at hpred; exact absurd hpred (by simp)
        | some o =>
          cases o with
          | none => rw [hml] at hpred; exact absurd hpred (by simp)
          | some s =>
            rw [hml] at hpred
            have hrange : emailInRange term s = true := hpred
            have hand := (Bool.and_eq_true _ _).mp hrange
            refine ⟨⟨s, ?_, ?_⟩, kv.1, kv.2, ?_, rfl, ?_⟩
            · simp [toSearchRecord, hml]
            · exact lexLe_bounds_isPrefixOf term.data s.data sentinelChar hand.1 hand.2
            · simpa using hmem
            · intro hfb
              simp [toSearchRecord, hfb]

/-- Fixture for the search witness: an admin `sa` whose profile also
carries a matching email. -/
def searchStore : DocStore UserDoc :=
  [(getUserProfilePath "default-app-id" "sa",
    { uid := some "sa", role := some "admin", email := some (some "ab@x") })]

/-- Witness for `searchUsersByEmail_spec`: a one-character term returns
the empty list for the concrete admin directory. -/
theorem searchUsersByEmail_spec_witness :
    assertAdmin (some "sa") (appIdFromEnv none) searchStore = .ok ()
    ∧ searchUsersByEmail none (some "sa") "a" searchStore = .ok [] :=
  ⟨by decide,
   (searchUsersByEmail_spec none (some "sa") "a" searchStore (by decide)).1 (by decide)⟩

end SalonFns
